import Mathlib

set_option maxHeartbeats 1000000

/-!
Shallow embedding of the sharky-checker localstore audit tool (src/main.go).

Byte slices are modelled as `List Nat` (each entry a byte value), Go `uint64`
as `Nat` with explicit wrapping modulo 2^64 where the code can overflow, and
Go `int`/`int64` as `Int` with explicit reinterpretation of 64-bit patterns.
Fallible Go calls are modelled as `Except`; Go expressions that can hit a
runtime fault (out-of-range slicing) return a `GoResult` with a dedicated
`fault` outcome distinct from a returned error.

External collaborators (the shed index engine, the sharky blob store, the
cac/soc chunk validity predicates, the postage stamp codec) are taken at the
interface the audit consumes: iteration outcomes, point-lookup functions and
validity predicates are parameters of the embedded checkers.
-/

/-- The record type shed.Item that every codec and checker in src/main.go
passes around (fields as in the shed library; only the listed fields are
touched by this program). -/
structure Item where
  Address : List Nat
  Data : List Nat
  AccessTimestamp : Int
  StoreTimestamp : Int
  BinID : Nat
  PinCounter : Nat
  Tag : Nat
  BatchID : List Nat
  Index : List Nat
  Timestamp : List Nat
  Sig : List Nat
  Location : List Nat
  deriving DecidableEq, Repr

/-- The Go zero value of shed.Item; every DecodeKey/DecodeValue closure in
src/main.go starts from it (`var e shed.Item`). -/
def zeroItem : Item := ⟨[], [], 0, 0, 0, 0, 0, [], [], [], [], []⟩

/-- 2^64, the wrap modulus of Go uint64 arithmetic. -/
abbrev two64 : Nat := 18446744073709551616

/-- 2^63, the first uint64 bit pattern that reinterprets as a negative int64. -/
abbrev two63 : Nat := 9223372036854775808

/-- binary.BigEndian.PutUint64: the eight big-endian bytes of a uint64 value. -/
def beBytes8 (n : Nat) : List Nat :=
  [n / 72057594037927936 % 256, n / 281474976710656 % 256, n / 1099511627776 % 256,
   n / 4294967296 % 256, n / 16777216 % 256, n / 65536 % 256, n / 256 % 256, n % 256]

/-- binary.BigEndian.Uint64: the big-endian value of the first eight bytes. -/
def be64of (b : List Nat) : Nat :=
  (b.take 8).foldl (fun acc x => acc * 256 + x % 256) 0

/-- Reinterpretation of a uint64 bit pattern as a Go int64 (the conversion
`int(u)` on a 64-bit platform, as in src/main.go:343). -/
def int64ofUInt64 (n : Nat) : Int :=
  if n < two63 then (n : Int) else (n : Int) - (two64 : Int)

/-- Outcome of a Go computation: a value, a returned error, or a runtime
fault (a panic, e.g. from an out-of-range slice expression). -/
inductive GoResult (α : Type) where
  | ok (a : α)
  | err (e : String)
  | fault
  deriving DecidableEq, Repr

/-- Go slice expression b[lo:hi]: faults unless lo ≤ hi ≤ len(b). -/
def goSlice (b : List Nat) (lo hi : Nat) : GoResult (List Nat) :=
  if lo ≤ hi ∧ hi ≤ b.length then GoResult.ok ((b.drop lo).take (hi - lo))
  else GoResult.fault

/-- Go slice expression b[lo:]: faults unless lo ≤ len(b). -/
def goSliceFrom (b : List Nat) (lo : Nat) : GoResult (List Nat) :=
  if lo ≤ b.length then GoResult.ok (b.drop lo) else GoResult.fault

/-- Go copy(dst, src): copies min(len dst, len src) bytes from the front of
src over the front of dst; the result keeps dst's length. -/
def goCopy (dst src : List Nat) : List Nat :=
  src.take (min dst.length src.length) ++ dst.drop (min dst.length src.length)

/-- Go copy(b[lo:hi], src): the whole of b after copying src into the window
[lo, hi) (used for the key buffers built with make in src/main.go). -/
def copySub (b : List Nat) (lo hi : Nat) (src : List Nat) : List Nat :=
  b.take lo ++ goCopy ((b.drop lo).take (hi - lo)) src ++ b.drop hi

/-- postage.StampSize of the external bee postage package: 32-byte batch id,
8-byte batch index, 8-byte timestamp, 65-byte signature. -/
def stampSize : Nat := 113

/-- headerSize := 16 + postage.StampSize (src/main.go:93). -/
def headerSize : Nat := 16 + stampSize

/-- The postage stamp attached to a chunk record (external bee type, carried
through the primary index value). -/
structure Stamp where
  batchID : List Nat
  index : List Nat
  timestamp : List Nat
  sig : List Nat
  deriving DecidableEq, Repr

/-- External collaborator modelled at its interface: postage.Stamp
UnmarshalBinary rejects a buffer whose length is not StampSize, and otherwise
splits it into batch id, batch index, timestamp and signature. -/
def stampUnmarshalBinary (buf : List Nat) : Except String Stamp :=
  if buf.length = stampSize then
    Except.ok ⟨buf.take 32, (buf.drop 32).take 8, (buf.drop 40).take 8, buf.drop 48⟩
  else Except.error "invalid stamp"

/-- DecodeValue of the primary (retrievalData) index, src/main.go:114-127:
reads value[8:16] as the store timestamp, value[:8] as the bin id,
unmarshals value[16:headerSize] as the stamp and keeps value[headerSize:] as
the location blob. The slice expressions fault on inputs shorter than
headerSize because the source performs no length check. -/
def retrievalData_DecodeValue (value : List Nat) : GoResult Item :=
  match goSlice value 8 16 with
  | GoResult.err e => GoResult.err e
  | GoResult.fault => GoResult.fault
  | GoResult.ok ts =>
    match goSlice value 0 8 with
    | GoResult.err e => GoResult.err e
    | GoResult.fault => GoResult.fault
    | GoResult.ok bin =>
      match goSlice value 16 headerSize with
      | GoResult.err e => GoResult.err e
      | GoResult.fault => GoResult.fault
      | GoResult.ok stampBytes =>
        match stampUnmarshalBinary stampBytes with
        | Except.error e => GoResult.err e
        | Except.ok st =>
          match goSliceFrom value headerSize with
          | GoResult.err e => GoResult.err e
          | GoResult.fault => GoResult.fault
          | GoResult.ok loc =>
            GoResult.ok { zeroItem with
              StoreTimestamp := int64ofUInt64 (be64of ts),
              BinID := be64of bin,
              BatchID := st.batchID, Index := st.index,
              Timestamp := st.timestamp, Sig := st.sig,
              Location := loc }

/-- DecodeValue of the pin index, src/main.go:262-265: reads value[:8] as the
pin counter; the slice faults on inputs shorter than eight bytes. -/
def pin_DecodeValue (value : List Nat) : GoResult Item :=
  match goSlice value 0 8 with
  | GoResult.err e => GoResult.err e
  | GoResult.fault => GoResult.fault
  | GoResult.ok b => GoResult.ok { zeroItem with PinCounter := be64of b }

/-- EncodeKey of the pull index, src/main.go:159-164: key := make([]byte, 9);
the po assignment for key[0] is commented out in the source, so key[0] stays
zero; key[1:9] is the big-endian bin id. -/
def pull_EncodeKey (fields : Item) : List Nat :=
  0 :: beBytes8 fields.BinID

/-- DecodeKey of the pull index, src/main.go:165-168: reads only key[1:9] as
the bin id (key[0] is ignored); faults on keys shorter than nine bytes. -/
def pull_DecodeKey (key : List Nat) : GoResult Item :=
  match goSlice key 1 9 with
  | GoResult.err e => GoResult.err e
  | GoResult.fault => GoResult.fault
  | GoResult.ok b => GoResult.ok { zeroItem with BinID := be64of b }

/-- EncodeKey of the postageChunks index, src/main.go:273-279: key :=
make([]byte, 65); copy(key[:32], BatchID); the po assignment for key[32] is
commented out in the source, so key[32] stays zero; copy(key[33:], Address). -/
def postageChunks_EncodeKey (fields : Item) : List Nat :=
  copySub (copySub (List.replicate 65 0) 0 32 fields.BatchID) 33 65 fields.Address

/-- DecodeKey of the postageChunks index, src/main.go:280-284: batch id from
key[:32] and address from key[33:65]; faults on keys shorter than 65 bytes. -/
def postageChunks_DecodeKey (key : List Nat) : GoResult Item :=
  match goSlice key 0 32 with
  | GoResult.err e => GoResult.err e
  | GoResult.fault => GoResult.fault
  | GoResult.ok b =>
    match goSlice key 33 65 with
    | GoResult.err e => GoResult.err e
    | GoResult.fault => GoResult.fault
    | GoResult.ok a => GoResult.ok { zeroItem with BatchID := b, Address := a }

/-- Hex digit character used by swarm.Address.String (lowercase hex). -/
def hexDigit (n : Nat) : Char :=
  if n < 10 then Char.ofNat (48 + n) else Char.ofNat (87 + n)

/-- Two-character lowercase hex rendering of one byte. -/
def byteHex (b : Nat) : String :=
  String.mk [hexDigit (b / 16 % 16), hexDigit (b % 16)]

/-- swarm.NewAddress(bytes).String(): lowercase hex of the address bytes. -/
def addrHex (a : List Nat) : String :=
  String.join (a.map byteHex)

/-- The violation text of checkIndexes, src/main.go:393:
fmt.Sprintf("item in %s and not in %s %s", srcStr, dstStr, addrStr.String()). -/
def itemInMsg (srcStr dstStr : String) (addr : List Nat) : String :=
  "item in " ++ srcStr ++ " and not in " ++ dstStr ++ " " ++ addrHex addr

/-- One visit of the iteration closure in checkIndexes, src/main.go:390-396:
if the destination Has lookup returns an error or reports absence, append one
violation message naming the (source, destination) pair and the address. -/
def checkVisit (dstHas : Item → Except String Bool) (srcStr dstStr : String)
    (msgs : List String) (item : Item) : List String :=
  match dstHas item with
  | Except.error _ => msgs ++ [itemInMsg srcStr dstStr item.Address]
  | Except.ok ex => if ex then msgs else msgs ++ [itemInMsg srcStr dstStr item.Address]

/-- checkIndexes, src/main.go:385-403. The source index is given by its
iteration outcome: the records the engine delivered in key order, paired with
the engine error that ended the iteration, if any (none on a clean full
pass). If the iteration failed, one critical message naming the source index
is appended after the per-record messages. -/
def checkIndexes (scan : List Item × Option String)
    (dstHas : Item → Except String Bool) (srcStr dstStr : String) : List String :=
  let msgs := scan.1.foldl (checkVisit dstHas srcStr dstStr) []
  match scan.2 with
  | some _ => msgs ++ ["CRITICAL: failed checking " ++ srcStr ++ " index"]
  | none => msgs

/-- The seven referential-integrity calls of main, src/main.go:330-336: each
secondary index is checked against the primary retrievalDataIndex (whose Has
lookup is `primaryHas`); the destination-to-source direction is never run. -/
def referentialPhase
    (accessScan pullScan pushScan gcScan pinScan postageChunksScan
      postageIndexScan : List Item × Option String)
    (primaryHas : Item → Except String Bool) : List String :=
  checkIndexes accessScan primaryHas "retrievalAccessIdx" "retrievalDataIndex"
    ++ checkIndexes pullScan primaryHas "pullIdx" "retrievalDataIndex"
    ++ checkIndexes pushScan primaryHas "pushIdx" "retrievalDataIndex"
    ++ checkIndexes gcScan primaryHas "gcIdx" "retrievalDataIndex"
    ++ checkIndexes pinScan primaryHas "pinIdx" "retrievalDataIndex"
    ++ checkIndexes postageChunksScan primaryHas "postageChunksIdx" "retrievalDataIndex"
    ++ checkIndexes postageIndexScan primaryHas "postageIndexIdx" "retrievalDataIndex"

/-- The counter-bound check of main, src/main.go:338-345. Each Get result is
the (value, error) pair the call returned; the source discards the error with
a blank identifier and uses the value. The sum gcCnt+rsvCnt is Go uint64
addition (wraps at 2^64) and is compared through the conversion int(...). -/
def counterCheck (gcGet rsvGet : Nat × Option String)
    (countGet : Int × Option String) : List String :=
  let sum := (gcGet.1 + rsvGet.1) % two64
  if int64ofUInt64 sum > countGet.1 then
    ["gcSize+reserveSize(" ++ toString sum ++ ") > chunkCount(" ++ toString countGet.1 ++ ")"]
  else []

/-- sharky.Location, external blob-store location descriptor (shard, slot,
length). Only its role as the argument of Read matters to the audit. -/
structure Location where
  shard : Nat
  slot : Nat
  length : Nat
  deriving DecidableEq, Repr

/-- One visit of the content-integrity closure of main, src/main.go:347-364:
decode the record's location (failure: one inconsistency naming the address),
read the blob (failure: one inconsistency carrying the read error), and on a
successful read record a corruption naming the address when the chunk
satisfies neither cac.Valid nor soc.Valid. The accumulator carries the
(inconsistencies, corruptions) lists. -/
def contentVisit (locFromBin : List Nat → Except String Location)
    (read : Location → Except String (List Nat))
    (cacValid socValid : List Nat → List Nat → Bool)
    (acc : List String × List String) (item : Item) : List String × List String :=
  match locFromBin item.Location with
  | Except.error e =>
    (acc.1 ++ ["invalid sharky location for item " ++ addrHex item.Address ++ " err: " ++ e],
     acc.2)
  | Except.ok l =>
    match read l with
    | Except.error e => (acc.1 ++ ["cannot read location from sharky " ++ e], acc.2)
    | Except.ok data =>
      if !cacValid item.Address data && !socValid item.Address data then
        (acc.1, acc.2 ++ ["address " ++ addrHex item.Address])
      else acc

/-- The content-integrity scan of main, src/main.go:347-364: one pass over
the primary index's iteration outcome. The engine error that ended the
iteration (scan.2) is assigned to err at src/main.go:347 and never read
afterwards, so it does not influence the result. -/
def contentScan (scan : List Item × Option String)
    (locFromBin : List Nat → Except String Location)
    (read : Location → Except String (List Nat))
    (cacValid socValid : List Nat → List Nat → Bool) : List String × List String :=
  scan.1.foldl (contentVisit locFromBin read cacValid socValid) ([], [])

/-- The finding-collection phase of main, src/main.go:328-364, in source
order: the seven referential checks, then the counter-bound check (all
appended to the inconsistency list), then the content-integrity scan, whose
inconsistencies are appended last and whose corruptions form the second
category. -/
def auditFindings
    (accessScan pullScan pushScan gcScan pinScan postageChunksScan
      postageIndexScan : List Item × Option String)
    (primaryHas : Item → Except String Bool)
    (gcGet rsvGet : Nat × Option String) (countGet : Int × Option String)
    (primaryScan : List Item × Option String)
    (locFromBin : List Nat → Except String Location)
    (read : Location → Except String (List Nat))
    (cacValid socValid : List Nat → List Nat → Bool) : List String × List String :=
  let inconsistencies :=
    referentialPhase accessScan pullScan pushScan gcScan pinScan
      postageChunksScan postageIndexScan primaryHas
  let inconsistencies := inconsistencies ++ counterCheck gcGet rsvGet countGet
  let content := contentScan primaryScan locFromBin read cacValid socValid
  (inconsistencies ++ content.1, content.2)

/-- One line of the final report, src/main.go:366-382; each constructor is
one Printf call with its arguments. -/
inductive ReportLine where
  | checkComplete
  | foundInconsistencies (n : Nat)
  | inconsistency (msg : String)
  | foundCorruptions (n : Nat)
  | corruption (msg : String)
  | noneFound
  deriving DecidableEq, Repr

/-- The exact text each report line renders to (the Printf format strings of
src/main.go:366-382, newlines dropped). -/
def ReportLine.render : ReportLine → String
  | ReportLine.checkComplete => "Check complete"
  | ReportLine.foundInconsistencies n => "Found " ++ toString n ++ " inconsistencies in indexes"
  | ReportLine.inconsistency m => "INCONSISTENCY: " ++ m
  | ReportLine.foundCorruptions n => "Found " ++ toString n ++ " data corruptions"
  | ReportLine.corruption m => "DATA CORRUPTION: " ++ m
  | ReportLine.noneFound => "No inconsistencies or corruptions found"

/-- The final report of main, src/main.go:366-382: "Check complete", then for
a non-empty inconsistency list its count line followed by one line per entry,
then the same for corruptions, then the no-findings line when both lists are
empty (the source tests len(corruptions) == 0 && len(inconsistencies) == 0). -/
def report (inconsistencies corruptions : List String) : List ReportLine :=
  [ReportLine.checkComplete]
    ++ (if 0 < inconsistencies.length then
          ReportLine.foundInconsistencies inconsistencies.length
            :: inconsistencies.map ReportLine.inconsistency
        else [])
    ++ (if 0 < corruptions.length then
          ReportLine.foundCorruptions corruptions.length
            :: corruptions.map ReportLine.corruption
        else [])
    ++ (if corruptions.length = 0 ∧ inconsistencies.length = 0 then
          [ReportLine.noneFound]
        else [])

/-- Extractor picking the inconsistency finding a report line carries, if
any (used to state which findings the report prints, and in which order). -/
def inconsistencyText : ReportLine → Option String
  | ReportLine.inconsistency m => some m
  | _ => none

/-- Extractor picking the corruption finding a report line carries, if any. -/
def corruptionText : ReportLine → Option String
  | ReportLine.corruption m => some m
  | _ => none

/-- Flags of os.OpenFile relevant to dirFS.Open. -/
inductive OpenFlag where
  | rdonly
  | wronly
  | rdwr
  | create
  | trunc
  deriving DecidableEq, Repr

/-- The flag set dirFS.Open passes to os.OpenFile, src/main.go:27-29:
os.O_RDWR|os.O_CREATE (mode 0644). -/
def dirFS_openFlags : List OpenFlag := [OpenFlag.rdwr, OpenFlag.create]

/-- Effect of one os.OpenFile call on the file system, modelled from the
documented os package semantics over a name-to-contents map: O_CREATE creates
a missing file empty, O_TRUNC empties an existing file, and otherwise opening
leaves the file system unchanged. -/
def openFileEffect (flags : List OpenFlag) (files : List (String × List Nat))
    (p : String) : List (String × List Nat) :=
  if p ∈ files.map Prod.fst then
    if OpenFlag.trunc ∈ flags then
      files.map (fun f => if f.1 = p then (f.1, []) else f)
    else files
  else if OpenFlag.create ∈ flags then (p, []) :: files
  else files

/-- Claim-side description of the per-record violation checkIndexes emits: a
record is flagged exactly when the destination lookup errs or reports
absence, with the message naming the index pair and the address. -/
def refViolationSpec (dstHas : Item → Except String Bool) (srcStr dstStr : String)
    (item : Item) : Option String :=
  match dstHas item with
  | Except.ok true => none
  | Except.ok false => some (itemInMsg srcStr dstStr item.Address)
  | Except.error _ => some (itemInMsg srcStr dstStr item.Address)

/-- Claim-side description of the inconsistency the content scan records for
one record: the location-decode failure message (naming the address) or the
blob-read failure message (carrying only the read error); none on a
successful read. -/
def contentIncSpec (locFromBin : List Nat → Except String Location)
    (read : Location → Except String (List Nat)) (item : Item) : Option String :=
  match locFromBin item.Location with
  | Except.error e =>
    some ("invalid sharky location for item " ++ addrHex item.Address ++ " err: " ++ e)
  | Except.ok l =>
    match read l with
    | Except.error e => some ("cannot read location from sharky " ++ e)
    | Except.ok _ => none

/-- Claim-side description of the corruption the content scan records for one
record: emitted exactly when the location decodes, the read succeeds, and the
(address, data) chunk satisfies neither validity scheme. -/
def contentCorSpec (locFromBin : List Nat → Except String Location)
    (read : Location → Except String (List Nat))
    (cacValid socValid : List Nat → List Nat → Bool) (item : Item) : Option String :=
  match locFromBin item.Location with
  | Except.error _ => none
  | Except.ok l =>
    match read l with
    | Except.error _ => none
    | Except.ok data =>
      if !cacValid item.Address data && !socValid item.Address data then
        some ("address " ++ addrHex item.Address)
      else none

/-- Concrete record used in the read-failure counterexample (address 0x11^32). -/
def itemReadA : Item := { zeroItem with Address := List.replicate 32 17, Location := [1] }

/-- Concrete record differing from itemReadA only in its address (0x22^32). -/
def itemReadB : Item := { zeroItem with Address := List.replicate 32 34, Location := [1] }

/-- Concrete record for the pull/postageChunks key counterexample: address
0x00^32, batch id 0x03^32, bin id 5. -/
def pullItemA : Item :=
  { zeroItem with Address := List.replicate 32 0, BatchID := List.replicate 32 3, BinID := 5 }

/-- Concrete record differing from pullItemA only in its address (0xff^32),
hence lying in a different proximity bin under any prefix-proximity measure. -/
def pullItemB : Item :=
  { zeroItem with Address := List.replicate 32 255, BatchID := List.replicate 32 3, BinID := 5 }

/-- Round trip of the big-endian uint64 codec: decoding the eight encoded
bytes recovers the value modulo 2^64. -/
theorem be64of_beBytes8 (n : Nat) : be64of (beBytes8 n) = n % two64 := by
  show be64of (beBytes8 n) = n % 18446744073709551616
  simp [be64of, beBytes8, List.foldl]
  omega

/-- The eight-byte big-endian encoding has length eight. -/
theorem beBytes8_length (n : Nat) : (beBytes8 n).length = 8 := by
  simp [beBytes8]

/-- A slice within bounds yields its window. -/
theorem goSlice_eq_ok (b : List Nat) (lo hi : Nat) (h1 : lo ≤ hi) (h2 : hi ≤ b.length) :
    goSlice b lo hi = GoResult.ok ((b.drop lo).take (hi - lo)) := by
  unfold goSlice
  exact if_pos ⟨h1, h2⟩

/-- A slice whose upper bound exceeds the length faults. -/
theorem goSlice_eq_fault (b : List Nat) (lo hi : Nat) (h : b.length < hi) :
    goSlice b lo hi = GoResult.fault := by
  unfold goSlice
  exact if_neg (fun hh => absurd hh.2 (by omega))

/-- The accumulation loop of checkIndexes delivers, after the visited prefix,
exactly the per-record violations of refViolationSpec in iteration order. -/
theorem checkIndexes_foldl_eq (dstHas : Item → Except String Bool) (s d : String) :
    ∀ (items : List Item) (acc : List String),
      items.foldl (checkVisit dstHas s d) acc
        = acc ++ items.filterMap (refViolationSpec dstHas s d) := by
  intro items
  induction items with
  | nil => intro acc; simp
  | cons it rest ih =>
    intro acc
    rw [List.foldl_cons, ih, List.filterMap_cons]
    cases h : dstHas it with
    | error e => simp [checkVisit, refViolationSpec, h]
    | ok ex => cases ex <;> simp [checkVisit, refViolationSpec, h]

/-- checkIndexes on a clean iteration is exactly the filterMap of the
per-record violation description. -/
theorem checkIndexes_clean (items : List Item) (dstHas : Item → Except String Bool)
    (s d : String) :
    checkIndexes (items, none) dstHas s d = items.filterMap (refViolationSpec dstHas s d) := by
  unfold checkIndexes
  rw [checkIndexes_foldl_eq]
  simp

/-- The accumulation loop of the content scan splits into the inconsistency
and corruption descriptions of the visited records, in iteration order. -/
theorem contentScan_foldl_eq (locFromBin : List Nat → Except String Location)
    (read : Location → Except String (List Nat))
    (cacValid socValid : List Nat → List Nat → Bool) :
    ∀ (items : List Item) (acc : List String × List String),
      items.foldl (contentVisit locFromBin read cacValid socValid) acc
        = (acc.1 ++ items.filterMap (contentIncSpec locFromBin read),
           acc.2 ++ items.filterMap (contentCorSpec locFromBin read cacValid socValid)) := by
  intro items
  induction items with
  | nil => intro acc; simp
  | cons it rest ih =>
    intro acc
    rw [List.foldl_cons, ih, List.filterMap_cons, List.filterMap_cons]
    cases h : locFromBin it.Location with
    | error e => simp [contentVisit, contentIncSpec, contentCorSpec, h]
    | ok l =>
      cases hr : read l with
      | error e => simp [contentVisit, contentIncSpec, contentCorSpec, h, hr]
      | ok data =>
        by_cases hv : !cacValid it.Address data && !socValid it.Address data
        · simp [contentVisit, contentIncSpec, contentCorSpec, h, hr, hv]
        · simp [contentVisit, contentIncSpec, contentCorSpec, h, hr, hv]

/-- Claim C1: each of the seven secondary indexes is checked against the
primary index and nothing else — the audit's referential phase equals, per
source index in the order of src/main.go:330-336, the filterMap that yields
exactly one violation (naming the source/destination pair and the record's
address) for each record whose primary-index Has lookup errs or reports
absence, and nothing for records that are present; no check runs in the
destination-to-source direction, since every call's lookup is the primary
index's. -/
theorem referential_integrity_check
    (la lpu lps lg lpi lpc lpx : List Item) (primaryHas : Item → Except String Bool) :
    referentialPhase (la, none) (lpu, none) (lps, none) (lg, none) (lpi, none)
        (lpc, none) (lpx, none) primaryHas
      = la.filterMap (refViolationSpec primaryHas "retrievalAccessIdx" "retrievalDataIndex")
        ++ lpu.filterMap (refViolationSpec primaryHas "pullIdx" "retrievalDataIndex")
        ++ lps.filterMap (refViolationSpec primaryHas "pushIdx" "retrievalDataIndex")
        ++ lg.filterMap (refViolationSpec primaryHas "gcIdx" "retrievalDataIndex")
        ++ lpi.filterMap (refViolationSpec primaryHas "pinIdx" "retrievalDataIndex")
        ++ lpc.filterMap (refViolationSpec primaryHas "postageChunksIdx" "retrievalDataIndex")
        ++ lpx.filterMap (refViolationSpec primaryHas "postageIndexIdx" "retrievalDataIndex") := by
  unfold referentialPhase
  rw [checkIndexes_clean, checkIndexes_clean, checkIndexes_clean, checkIndexes_clean,
    checkIndexes_clean, checkIndexes_clean, checkIndexes_clean]

/-- Claim C2: on the content-integrity scan, the corruption category collects
exactly one finding, naming the record's address, for each primary-index
record whose location decodes and whose blob read succeeds but whose
(address, data) chunk satisfies neither validity scheme — and those findings
go to the corruption component, while the inconsistency component collects
exactly the decode/read failure messages, so the two categories are kept
distinct. -/
theorem content_corruption_characterization
    (items : List Item) (iterErr : Option String)
    (locFromBin : List Nat → Except String Location)
    (read : Location → Except String (List Nat))
    (cacValid socValid : List Nat → List Nat → Bool) :
    (contentScan (items, iterErr) locFromBin read cacValid socValid).2
        = items.filterMap (contentCorSpec locFromBin read cacValid socValid)
      ∧ (contentScan (items, iterErr) locFromBin read cacValid socValid).1
        = items.filterMap (contentIncSpec locFromBin read) := by
  unfold contentScan
  rw [contentScan_foldl_eq]
  simp

/-- Counterexample to claim C4: the inconsistency recorded for a failing blob
read does not name the record's address — two scans over records that differ
only in their address (itemReadA vs itemReadB), with the same read failure,
produce the identical message "cannot read location from sharky read failed",
so the message cannot identify the offending address (src/main.go:356 formats
only the error). -/
theorem content_read_error_message_cex :
    contentScan ([itemReadA], none) (fun _ => Except.ok ⟨0, 0, 0⟩)
        (fun _ => Except.error "read failed") (fun _ _ => true) (fun _ _ => true)
      = (["cannot read location from sharky read failed"], [])
    ∧ contentScan ([itemReadB], none) (fun _ => Except.ok ⟨0, 0, 0⟩)
        (fun _ => Except.error "read failed") (fun _ _ => true) (fun _ _ => true)
      = (["cannot read location from sharky read failed"], [])
    ∧ itemReadA.Address ≠ itemReadB.Address := by
  refine ⟨rfl, rfl, by decide⟩

/-- Claim C4 (amended): during the content scan, a record whose location
fails to decode contributes exactly one inconsistency naming its address, a
record whose blob read fails contributes exactly one inconsistency carrying
only the read error (not the address), a record that reads successfully
contributes none, and in every case the scan continues: the records after the
offending one contribute exactly as they would on their own, with no retry. -/
theorem content_error_handling
    (pre post : List Item) (it : Item) (iterErr : Option String)
    (locFromBin : List Nat → Except String Location)
    (read : Location → Except String (List Nat))
    (cacValid socValid : List Nat → List Nat → Bool) :
    (contentScan (pre ++ it :: post, iterErr) locFromBin read cacValid socValid).1
      = (contentScan (pre, iterErr) locFromBin read cacValid socValid).1
        ++ (contentIncSpec locFromBin read it).toList
        ++ (contentScan (post, iterErr) locFromBin read cacValid socValid).1 := by
  unfold contentScan
  rw [contentScan_foldl_eq, contentScan_foldl_eq, contentScan_foldl_eq]
  simp [List.filterMap_append, List.filterMap_cons]
  cases h : contentIncSpec locFromBin read it <;> simp [h]

/-- Counterexample to claim C5: a run in which the content-integrity scan's
iteration over the primary index fails at the engine level produces no
critical message at all — the audit's findings are completely empty, although
the claim requires exactly one critical-severity message for every failing
index scan. The error is assigned to err at src/main.go:347 and never read. -/
theorem audit_silent_scan_failure_cex :
    auditFindings ([], none) ([], none) ([], none) ([], none) ([], none) ([], none)
        ([], none) (fun _ => Except.ok true) (0, none) (0, none) (0, none)
        ([], some "retrievalDataIndex iteration failed")
        (fun _ => Except.error "") (fun _ => Except.error "")
        (fun _ _ => false) (fun _ _ => false)
      = ([], []) := by
  rfl

/-- Claim C5 (amended): for the seven referential-integrity checks, an
iteration failure appends exactly one critical message naming the source
index after that index's per-record violations, leaving the other checks
untouched; the content-integrity scan's iteration error, by contrast, is
discarded: its outcome is identical whether or not the iteration failed. -/
theorem iteration_failure_handling
    (items : List Item) (e : String) (dstHas : Item → Except String Bool) (s d : String)
    (pitems : List Item) (perr : Option String)
    (locFromBin : List Nat → Except String Location)
    (read : Location → Except String (List Nat))
    (cacValid socValid : List Nat → List Nat → Bool) :
    checkIndexes (items, some e) dstHas s d
        = checkIndexes (items, none) dstHas s d ++ ["CRITICAL: failed checking " ++ s ++ " index"]
      ∧ contentScan (pitems, perr) locFromBin read cacValid socValid
        = contentScan (pitems, none) locFromBin read cacValid socValid := by
  exact ⟨rfl, rfl⟩

/-- Claim C10: the errors returned by the gcSize read, the reserveSize read
and the primary count are discarded (src/main.go:338-341 bind them to the
blank identifier): the counter-bound check's output is identical whatever
those errors are, it never emits a critical message or aborts, and its only
possible output is the single bound-violation message computed from the
returned (possibly defaulted) values. -/
theorem counter_errors_ignored (gc rsv : Nat) (cnt : Int) (e1 e2 e3 : Option String) :
    counterCheck (gc, e1) (rsv, e2) (cnt, e3) = counterCheck (gc, none) (rsv, none) (cnt, none)
      ∧ (counterCheck (gc, e1) (rsv, e2) (cnt, e3) = []
         ∨ counterCheck (gc, e1) (rsv, e2) (cnt, e3)
            = ["gcSize+reserveSize(" ++ toString ((gc + rsv) % two64)
                ++ ") > chunkCount(" ++ toString cnt ++ ")"]) := by
  refine ⟨rfl, ?_⟩
  unfold counterCheck
  by_cases h : int64ofUInt64 ((gc + rsv) % two64) > cnt
  · right
    simp [h]
  · left
    simp [h]

/-- Counterexample to claim C3: with gcSize = 2^63, reserveSize = 2^63 and a
primary count of 10, the mathematical sum 2^64 exceeds the count, yet the
check emits no violation — the Go uint64 addition at src/main.go:343 wraps to
0 and int(0) > 10 is false, so the claimed iff with gcSize + reserveSize >
count fails at this input. -/
theorem counter_bound_overflow_cex :
    counterCheck (9223372036854775808, none) (9223372036854775808, none) (10, none) = []
      ∧ 9223372036854775808 + 9223372036854775808 > 10 := by
  refine ⟨by decide, by norm_num⟩

/-- Claim C3 (amended): the counter-bound check emits exactly one violation
message, carrying its two operands (the wrapped sum and the count), if and
only if the 64-bit wrapping sum of gcSize and reserveSize, reinterpreted as a
signed 64-bit value, exceeds the primary count — and otherwise emits nothing;
whenever gcSize + reserveSize < 2^63 (no wrap, no sign flip) this condition
coincides with the claim's gcSize + reserveSize > count. -/
theorem counter_bound_amended (gc rsv : Nat) (cnt : Int) (e1 e2 e3 : Option String) :
    (counterCheck (gc, e1) (rsv, e2) (cnt, e3)
        = ["gcSize+reserveSize(" ++ toString ((gc + rsv) % two64)
            ++ ") > chunkCount(" ++ toString cnt ++ ")"]
      ↔ int64ofUInt64 ((gc + rsv) % two64) > cnt)
    ∧ (counterCheck (gc, e1) (rsv, e2) (cnt, e3) = []
      ↔ ¬ int64ofUInt64 ((gc + rsv) % two64) > cnt)
    ∧ (gc + rsv < two63 →
        (counterCheck (gc, e1) (rsv, e2) (cnt, e3)
            = ["gcSize+reserveSize(" ++ toString (gc + rsv)
                ++ ") > chunkCount(" ++ toString cnt ++ ")"]
          ↔ (gc : Int) + rsv > cnt)) := by
  refine ⟨?_, ?_, ?_⟩
  · by_cases h : int64ofUInt64 ((gc + rsv) % two64) > cnt <;> simp [counterCheck, h]
  · by_cases h : int64ofUInt64 ((gc + rsv) % two64) > cnt <;> simp [counterCheck, h]
  · intro hlt
    have hlt' : gc + rsv < 9223372036854775808 := hlt
    have hm : (gc + rsv) % two64 = gc + rsv :=
      Nat.mod_eq_of_lt (by show gc + rsv < 18446744073709551616; omega)
    have hint : int64ofUInt64 (gc + rsv) = (gc : Int) + rsv := by
      unfold int64ofUInt64
      rw [if_pos hlt]
      push_cast
      rfl
    by_cases h : (gc : Int) + rsv > cnt <;> simp [counterCheck, hm, hint, h]

/-- Witness for claim C3 (amended), on the spec's own examples: gcSize=6,
reserveSize=5, primaryCount=10 yields exactly the violation reporting 11 >
10, while gcSize=5, reserveSize=3, primaryCount=10 yields none. -/
theorem counter_bound_amended_witness :
    counterCheck (6, none) (5, none) (10, none)
        = ["gcSize+reserveSize(" ++ toString ((6 : Nat) + 5)
            ++ ") > chunkCount(" ++ toString (10 : Int) ++ ")"]
      ∧ counterCheck (5, none) (3, none) (10, none) = [] := by
  constructor
  · exact ((counter_bound_amended 6 5 10 none none none).2.2 (by decide)).mpr (by decide)
  · exact (counter_bound_amended 5 3 10 none none none).2.1.mpr (by decide)

/-- Counterexample to claim C6: the primary (retrievalData) index's
DecodeValue applied to an empty value does not report a decode error — it
faults (the Go slice expression value[8:16] at src/main.go:115 panics with an
out-of-range index), so decoding a value shorter than the declared header is
a runtime panic, not an error return. -/
theorem decode_short_value_cex :
    retrievalData_DecodeValue [] = GoResult.fault := by
  decide

/-- Claim C6 (amended): decoding a value shorter than the declared fixed-size
header does not report a decode error but faults: the primary index's
DecodeValue faults on every input shorter than its 16-byte-plus-stamp header
(headerSize = 129), and the pin index's DecodeValue faults on every input
shorter than its 8-byte header. -/
theorem decode_short_value_faults (v w : List Nat)
    (hv : v.length < headerSize) (hw : w.length < 8) :
    retrievalData_DecodeValue v = GoResult.fault ∧ pin_DecodeValue w = GoResult.fault := by
  constructor
  · rcases Nat.lt_or_ge v.length 16 with h | h
    · unfold retrievalData_DecodeValue
      rw [goSlice_eq_fault v 8 16 h]
    · unfold retrievalData_DecodeValue
      rw [goSlice_eq_ok v 8 16 (by omega) h, goSlice_eq_ok v 0 8 (by omega) (by omega),
        goSlice_eq_fault v 16 headerSize hv]
  · unfold pin_DecodeValue
    rw [goSlice_eq_fault w 0 8 hw]

/-- Witness for claim C6 (amended): a 20-byte value is shorter than the
129-byte header and makes the primary DecodeValue fault; an empty value makes
the pin DecodeValue fault. -/
theorem decode_short_value_faults_witness :
    (List.replicate 20 0).length < headerSize ∧ ([] : List Nat).length < 8
      ∧ retrievalData_DecodeValue (List.replicate 20 0) = GoResult.fault
      ∧ pin_DecodeValue [] = GoResult.fault := by
  refine ⟨by decide, by decide, ?_, ?_⟩
  · exact (decode_short_value_faults (List.replicate 20 0) [] (by decide) (by decide)).1
  · exact (decode_short_value_faults (List.replicate 20 0) [] (by decide) (by decide)).2

/-- Counterexample to claim C8: dirFS.Open passes O_RDWR|O_CREATE to
os.OpenFile (src/main.go:28), so opening a missing blob-store shard file
creates it — the file set is not left unchanged, contradicting a strictly
read-only run in which no store entity is created. -/
theorem dirFS_open_creates_cex :
    openFileEffect dirFS_openFlags [] "shard_000" = [("shard_000", [])] := by
  decide

/-- Claim C8 (amended): the audit's checkers only consume read results, but
its blob-store file handle is opened with O_RDWR|O_CREATE: opening an
existing file leaves the file system unchanged (no truncation), while
opening a missing path creates exactly that file, empty — file creation at
open time is the one store mutation a run can perform. -/
theorem dirFS_open_creation_only (files : List (String × List Nat)) (p : String) :
    openFileEffect dirFS_openFlags files p
      = if p ∈ files.map Prod.fst then files else (p, []) :: files := by
  unfold openFileEffect dirFS_openFlags
  by_cases h : p ∈ files.map Prod.fst
  · rw [if_pos h, if_pos h,
      if_neg (by decide : ¬ OpenFlag.trunc ∈ [OpenFlag.rdwr, OpenFlag.create])]
  · rw [if_neg h, if_neg h,
      if_pos (by decide : OpenFlag.create ∈ [OpenFlag.rdwr, OpenFlag.create])]

/-- A list whose length equals the take bound is returned whole. -/
theorem take_eq_self_of_length (l : List Nat) (n : Nat) (h : l.length = n) :
    l.take n = l :=
  List.take_of_length_le (by omega)

/-- Dropping at least the whole length leaves nothing. -/
theorem drop_eq_nil_of_length (l : List Nat) (n : Nat) (h : l.length = n) :
    l.drop n = [] :=
  List.drop_eq_nil_of_le (by omega)

/-- Go copy over a destination of exactly the source's length replaces it. -/
theorem goCopy_exact (dst src : List Nat) (h : dst.length = src.length) :
    goCopy dst src = src := by
  unfold goCopy
  rw [h, Nat.min_self, take_eq_self_of_length src src.length rfl,
    drop_eq_nil_of_length dst src.length h]
  simp

/-- The postageChunks key of a record with 32-byte batch id and address is
the batch id, a zero byte (the slot the commented-out po assignment leaves
untouched), then the address. -/
theorem postageChunks_EncodeKey_eq (r : Item) (hb : r.BatchID.length = 32)
    (ha : r.Address.length = 32) :
    postageChunks_EncodeKey r = r.BatchID ++ 0 :: r.Address := by
  have hcopy1 : goCopy (List.replicate 32 0) r.BatchID = r.BatchID :=
    goCopy_exact _ _ (by simp [hb])
  have hcopy2 : goCopy (List.replicate 32 0) r.Address = r.Address :=
    goCopy_exact _ _ (by simp [ha])
  have h1 : copySub (List.replicate 65 0) 0 32 r.BatchID
      = r.BatchID ++ List.replicate 33 0 := by
    unfold copySub
    simp [List.take_replicate, List.drop_replicate]
    exact hcopy1
  have h2 : copySub (r.BatchID ++ List.replicate 33 0) 33 65 r.Address
      = r.BatchID ++ 0 :: r.Address := by
    unfold copySub
    rw [List.take_append_eq_append_take, List.drop_append_eq_append_drop,
      List.drop_append_eq_append_drop, hb]
    rw [List.take_of_length_le (by omega : r.BatchID.length ≤ 33),
      List.drop_eq_nil_of_le (by omega : r.BatchID.length ≤ 33),
      List.drop_eq_nil_of_le (by omega : r.BatchID.length ≤ 65)]
    simp [List.take_replicate, List.drop_replicate]
    exact hcopy2
  unfold postageChunks_EncodeKey
  rw [h1, h2]

/-- Decoding a 65-byte key made of a 32-byte batch id, one byte and a 32-byte
address recovers the batch id and the address. -/
theorem postageChunks_DecodeKey_eq (b a : List Nat) (hb : b.length = 32)
    (ha : a.length = 32) :
    postageChunks_DecodeKey (b ++ 0 :: a)
      = GoResult.ok { zeroItem with BatchID := b, Address := a } := by
  have hlen : (b ++ 0 :: a).length = 65 := by simp [hb, ha]
  have hs1 : ((b ++ 0 :: a).drop 0).take (32 - 0) = b := by
    norm_num
    rw [List.take_append_eq_append_take, hb, take_eq_self_of_length b 32 hb]
    simp
  have hs2 : ((b ++ 0 :: a).drop 33).take (65 - 33) = a := by
    norm_num
    rw [List.drop_append_eq_append_drop, hb,
      List.drop_eq_nil_of_le (by omega : b.length ≤ 33)]
    simp [take_eq_self_of_length a 32 ha]
  unfold postageChunks_DecodeKey
  rw [goSlice_eq_ok _ 0 32 (by omega) (by omega),
    goSlice_eq_ok _ 33 65 (by omega) (by omega), hs1, hs2]

/-- Counterexample to claim C7: the pull-index key does not encode the
proximity order and its decode does not recover it — two records that differ
only in their address (one all-0x00, one all-0xff, whose first bits differ,
so any prefix-proximity measure puts them in different bins) produce the
identical nine-byte key, and the decoded records are identical as well; and
the postageChunks key byte 32, which the claim says carries the proximity
order, is zero for both records (the po assignments are commented out at
src/main.go:161 and src/main.go:276). -/
theorem pull_postage_key_cex :
    pull_EncodeKey pullItemA = pull_EncodeKey pullItemB
      ∧ pull_DecodeKey (pull_EncodeKey pullItemA) = pull_DecodeKey (pull_EncodeKey pullItemB)
      ∧ pullItemA.Address ≠ pullItemB.Address
      ∧ ((postageChunks_EncodeKey pullItemA).drop 32).head? = some 0
      ∧ ((postageChunks_EncodeKey pullItemB).drop 32).head? = some 0 := by
  refine ⟨rfl, rfl, by decide, by decide, by decide⟩

/-- Claim C7 (amended): for the pull index, DecodeKey(EncodeKey r) recovers
only the 8-byte BinID — the leading key byte is always zero and decode
ignores it, so no proximity order is encoded or recovered; for the
postageChunks index, DecodeKey(EncodeKey r) recovers exactly the BatchID and
the Address, and key byte 32 (the proximity-order slot) is always zero. -/
theorem key_roundtrip_amended (r : Item) (hbin : r.BinID < two64)
    (hb : r.BatchID.length = 32) (ha : r.Address.length = 32) :
    pull_DecodeKey (pull_EncodeKey r) = GoResult.ok { zeroItem with BinID := r.BinID }
      ∧ (pull_EncodeKey r).head? = some 0
      ∧ postageChunks_DecodeKey (postageChunks_EncodeKey r)
        = GoResult.ok { zeroItem with BatchID := r.BatchID, Address := r.Address }
      ∧ ((postageChunks_EncodeKey r).drop 32).head? = some 0 := by
  refine ⟨?_, rfl, ?_, ?_⟩
  · unfold pull_EncodeKey pull_DecodeKey
    rw [goSlice_eq_ok _ 1 9 (by omega) (by simp [beBytes8])]
    have hslice : (((0 :: beBytes8 r.BinID).drop 1).take (9 - 1)) = beBytes8 r.BinID := by
      rw [List.drop_one, List.tail_cons, take_eq_self_of_length _ _ (beBytes8_length r.BinID)]
    rw [hslice]
    show GoResult.ok { zeroItem with BinID := be64of (beBytes8 r.BinID) }
        = GoResult.ok { zeroItem with BinID := r.BinID }
    rw [be64of_beBytes8, Nat.mod_eq_of_lt hbin]
  · rw [postageChunks_EncodeKey_eq r hb ha, postageChunks_DecodeKey_eq r.BatchID r.Address hb ha]
  · rw [postageChunks_EncodeKey_eq r hb ha, List.drop_append_eq_append_drop, hb,
      List.drop_eq_nil_of_le (by omega : r.BatchID.length ≤ 32)]
    rfl

/-- Witness for claim C7 (amended), at a concrete record with a 32-byte
batch id, a 32-byte address and bin id 5. -/
theorem key_roundtrip_amended_witness :
    pullItemB.BinID < two64
      ∧ pull_DecodeKey (pull_EncodeKey pullItemB)
        = GoResult.ok { zeroItem with BinID := pullItemB.BinID }
      ∧ postageChunks_DecodeKey (postageChunks_EncodeKey pullItemB)
        = GoResult.ok { zeroItem with BatchID := pullItemB.BatchID, Address := pullItemB.Address } := by
  refine ⟨by decide, ?_, ?_⟩
  · exact (key_roundtrip_amended pullItemB (by decide) (by decide) (by decide)).1
  · exact (key_roundtrip_amended pullItemB (by decide) (by decide) (by decide)).2.2.1

/-- Extracting the inconsistency findings from their rendered lines recovers
the list unchanged. -/
theorem filterMap_incText_map (l : List String) :
    l.filterMap (inconsistencyText ∘ ReportLine.inconsistency) = l := by
  induction l with
  | nil => rfl
  | cons a t ih => simp [inconsistencyText, Function.comp, ih]

/-- Extracting the corruption findings from their rendered lines recovers the
list unchanged. -/
theorem filterMap_corText_map (l : List String) :
    l.filterMap (corruptionText ∘ ReportLine.corruption) = l := by
  induction l with
  | nil => rfl
  | cons a t ih => simp [corruptionText, Function.comp, ih]

/-- Corruption lines carry no inconsistency finding. -/
theorem filterMap_incText_corMap (l : List String) :
    l.filterMap (inconsistencyText ∘ ReportLine.corruption) = [] := by
  induction l with
  | nil => rfl
  | cons a t ih => simp [inconsistencyText, Function.comp, ih]

/-- Inconsistency lines carry no corruption finding. -/
theorem filterMap_corText_incMap (l : List String) :
    l.filterMap (corruptionText ∘ ReportLine.inconsistency) = [] := by
  induction l with
  | nil => rfl
  | cons a t ih => simp [corruptionText, Function.comp, ih]

/-- Claim C9: the final report prints "Check complete" and then exactly the
accumulated findings — when both categories are empty it consists of the
status line saying no inconsistencies or corruptions were found (and that
line appears exactly in that case); otherwise, for each non-empty category
the report contains its count line, and extracting the category's finding
lines recovers the accumulated list itself, in order, with no filtering or
deduplication. -/
theorem report_shape (inc cor : List String) :
    ((inc = [] ∧ cor = []) → report inc cor = [ReportLine.checkComplete, ReportLine.noneFound])
      ∧ (ReportLine.noneFound ∈ report inc cor ↔ (inc = [] ∧ cor = []))
      ∧ (report inc cor).filterMap inconsistencyText = inc
      ∧ (report inc cor).filterMap corruptionText = cor
      ∧ (inc ≠ [] → ReportLine.foundInconsistencies inc.length ∈ report inc cor)
      ∧ (cor ≠ [] → ReportLine.foundCorruptions cor.length ∈ report inc cor) := by
  cases inc with
  | nil =>
    cases cor with
    | nil => refine ⟨fun _ => rfl, by simp [report], rfl, rfl, by simp, by simp⟩
    | cons c ct =>
      refine ⟨by simp, ?_, ?_, ?_, by simp, ?_⟩
      · simp [report, inconsistencyText, List.mem_map]
      · simp [report, List.filterMap_append, inconsistencyText, filterMap_incText_corMap]
      · simp [report, List.filterMap_append, corruptionText, filterMap_corText_map]
      · intro _
        simp [report]
  | cons i it =>
    cases cor with
    | nil =>
      refine ⟨by simp, ?_, ?_, ?_, ?_, by simp⟩
      · simp [report, inconsistencyText, List.mem_map]
      · simp [report, List.filterMap_append, inconsistencyText, filterMap_incText_map]
      · simp [report, List.filterMap_append, corruptionText, filterMap_corText_incMap]
      · intro _
        simp [report]
    | cons c ct =>
      refine ⟨by simp, ?_, ?_, ?_, ?_, ?_⟩
      · simp [report, inconsistencyText, List.mem_map]
      · simp [report, List.filterMap_append, inconsistencyText, filterMap_incText_map,
          filterMap_incText_corMap]
      · simp [report, List.filterMap_append, corruptionText, filterMap_corText_map,
          filterMap_corText_incMap]
      · intro _
        simp [report]
      · intro _
        simp [report]

/-- Witness for claim C9: an empty audit reports exactly the completion line
and the no-findings status line. -/
theorem report_shape_witness :
    report [] [] = [ReportLine.checkComplete, ReportLine.noneFound] :=
  (report_shape [] []).1 ⟨rfl, rfl⟩
